import Mathlib

/-!
Shallow embedding of `packages/nextjs/src/core/logger.ts` (next-axiom's
`Logger`, `prettyPrint` and helpers) together with the parts of the
process environment and the external collaborators (the `@axiomhq/js`
ingestion client and the `./config` configurator, whose source file is
not part of the staged repository) that the logger observes.

JavaScript runtime values that flow through the logger (the `args`
argument of the level methods, config `args` maps, request objects) are
modelled by the inductive `JSVal`; objects are association lists in
property order, and object spread, `Object.keys`, truthiness, `typeof`
and the JSON round trip `JSON.parse(JSON.stringify(x, replacer))` are
modelled explicitly.
-/

namespace NextAxiom

/-- JavaScript values as the logger sees them: primitives, arrays,
plain objects (association lists of own enumerable properties in
property order) and `Error` instances, whose `name`/`message`/`stack`
are the non-enumerable built-ins and `props` the own enumerable
properties. -/
inductive JSVal where
  | str (s : String)
  | num (n : Int)
  | bool (b : Bool)
  | null
  | undefined
  | arr (elems : List JSVal)
  | obj (fields : List (String × JSVal))
  | error (name message stack : String) (props : List (String × JSVal))

/-- Property lookup on an association-list object: the first binding of
the key wins (JS objects never hold a key twice). -/
def olookup (k : String) : List (String × JSVal) → Option JSVal
  | [] => none
  | (k₁, v) :: rest => if k₁ = k then some v else olookup k rest

/-- Object spread `\x7b...a, ...b\x7d`: a's properties in order, with b's
value where b also has the key, followed by b's new properties. -/
def mergeObj (a b : List (String × JSVal)) : List (String × JSVal) :=
  a.map (fun p => (p.1, (olookup p.1 b).getD p.2)) ++
    b.filter (fun p => (olookup p.1 a).isNone)

/-- Index/value pairs of an array, keyed by the decimal index string,
as `Object.keys`/object spread see an array. -/
def arrayEntries (xs : List JSVal) : List (String × JSVal) :=
  xs.enum.map (fun p => (toString p.1, p.2))

/-- Own enumerable string-keyed entries of a value, as object spread
enumerates them (spreading a primitive other than a string contributes
nothing; spreading a string contributes its characters by index). -/
def spreadEntries : JSVal → List (String × JSVal)
  | .obj fs => fs
  | .arr xs => arrayEntries xs
  | .error _ _ _ props => props
  | .str s => s.data.enum.map (fun p => (toString p.1, .str (String.mk [p.2])))
  | _ => []

/-- `Object.keys(v)`. (`Object.keys` is only reached in `_log` behind a
`typeof v === 'object' && v !== null` guard, so the `null`/`undefined`
results are never observed.) -/
def objKeys : JSVal → List String
  | .obj fs => fs.map Prod.fst
  | .arr xs => (arrayEntries xs).map Prod.fst
  | .error _ _ _ props => props.map Prod.fst
  | .str s => (s.data.enum.map (fun p => toString p.1))
  | _ => []

/-- JS truthiness of a value. -/
def truthy : JSVal → Bool
  | .str s => s ≠ ""
  | .num n => n ≠ 0
  | .bool b => b
  | .null => false
  | .undefined => false
  | .arr _ => true
  | .obj _ => true
  | .error _ _ _ _ => true

/-- `typeof v === 'object'` (true for objects, arrays, Error instances
and `null`). -/
def typeofIsObject : JSVal → Bool
  | .obj _ => true
  | .arr _ => true
  | .error _ _ _ _ => true
  | .null => true
  | _ => false

/-- Is the value exactly `null`? -/
def isNull : JSVal → Bool
  | .null => true
  | _ => false

/-- Loose `v == null`, i.e. `null` or `undefined` (the `!= null` guard
on `this.config.req`). -/
def isNullish : JSVal → Bool
  | .null => true
  | .undefined => true
  | _ => false

/-- The `length` property of a value: string length, array length, an
object's own `length` binding, otherwise `undefined`. -/
def lengthProp : JSVal → JSVal
  | .str s => .num s.length
  | .arr xs => .num xs.length
  | .obj fs => (olookup "length" fs).getD .undefined
  | .error _ _ _ props => (olookup "length" props).getD .undefined
  | _ => .undefined

/-- Property access `v[k]` on an arbitrary value (used for `req.path`):
own enumerable properties first, then an Error's non-enumerable
built-ins, otherwise `undefined`. -/
def jsGet (v : JSVal) (k : String) : JSVal :=
  match v with
  | .obj fs => (olookup k fs).getD .undefined
  | .error n m s props =>
    match olookup k props with
    | some w => w
    | none =>
      if k = "message" then .str m
      else if k = "stack" then .str s
      else if k = "name" then .str n
      else .undefined
  | _ => .undefined

mutual
/-- The value produced by `JSON.parse(JSON.stringify(v, jsonFriendlyErrorReplacer))`
(logger.ts line 123): the replacer turns an `Error` into
`\x7b...value, name, message, stack\x7d`; JSON drops object entries whose
value is `undefined` and turns `undefined` array elements into `null`. -/
def jsonRoundTrip : JSVal → JSVal
  | .str s => .str s
  | .num n => .num n
  | .bool b => .bool b
  | .null => .null
  | .undefined => .undefined
  | .arr xs => .arr (jsonRoundTripArr xs)
  | .obj fs => .obj (jsonRoundTripObj fs)
  | .error n m s props =>
    .obj (mergeObj (jsonRoundTripObj props)
      [("name", .str n), ("message", .str m), ("stack", .str s)])

/-- JSON round trip of the elements of an array: an element that
serializes to nothing becomes `null`. -/
def jsonRoundTripArr : List JSVal → List JSVal
  | [] => []
  | x :: xs =>
    (match jsonRoundTrip x with
      | .undefined => .null
      | v => v) :: jsonRoundTripArr xs

/-- JSON round trip of an object's entries: entries whose value
serializes to nothing are dropped. -/
def jsonRoundTripObj : List (String × JSVal) → List (String × JSVal)
  | [] => []
  | (k, x) :: fs =>
    match jsonRoundTrip x with
    | .undefined => jsonRoundTripObj fs
    | v => (k, v) :: jsonRoundTripObj fs
end

/-- The `LogLevel` numeric enum (logger.ts lines 19-25). -/
inductive LogLevel where
  | debug
  | info
  | warn
  | error
  | off

/-- The numeric value of each `LogLevel` member. -/
def LogLevel.toNat : LogLevel → Nat
  | .debug => 0
  | .info => 1
  | .warn => 2
  | .error => 3
  | .off => 100

/-- The result of indexing the compiled `LogLevel` enum object: member
names map to their numbers and, by TypeScript's reverse mapping, the
decimal strings of the numbers map back to the member-name strings. -/
inductive EnumVal where
  | num (n : Nat)
  | str (s : String)

/-- The property access `LogLevel[x]` for a string `x`: `undefined`
(`none`) when `x` is neither a member name nor the decimal string of a
member's value. -/
def logLevelLookup : String → Option EnumVal
  | "debug" => some (.num 0)
  | "info" => some (.num 1)
  | "warn" => some (.num 2)
  | "error" => some (.num 3)
  | "off" => some (.num 100)
  | "0" => some (.str "debug")
  | "1" => some (.str "info")
  | "2" => some (.str "warn")
  | "3" => some (.str "error")
  | "100" => some (.str "off")
  | _ => none

/-- `ToNumber` of an enum-lookup result, `none` standing for `NaN`:
the reverse-mapped values are the five member-name strings, none of
which is numeric, and `undefined` converts to `NaN`. -/
def enumToNumber : Option EnumVal → Option Nat
  | some (.num n) => some n
  | some (.str _) => none
  | none => none

/-- The JS `<` comparison as it evaluates `LogLevel[level] <
LogLevel[this.logLevel]` (logger.ts line 109): two strings compare
lexicographically, otherwise both sides go through `ToNumber` and any
`NaN` makes the comparison false. -/
def jsLt (a b : Option EnumVal) : Bool :=
  match a, b with
  | some (.str x), some (.str y) => decide (x < y)
  | _, _ =>
    match enumToNumber a, enumToNumber b with
    | some m, some n => decide (m < n)
    | _, _ => false

/-- Platform enrichment payload (logger.ts lines 39-44). -/
structure PlatformInfo where
  environment : Option String := none
  region : Option String := none
  route : Option JSVal := none
  source : Option String := none

/-- A structured log event (logger.ts lines 8-17). `fields` is the
event's own mapping; `request`, `platform`, `vercel` and `netlify` are
optional enrichment sections. -/
structure LogEvent where
  level : String
  message : String
  fields : List (String × JSVal)
  _time : String
  request : Option JSVal := none
  platform : Option PlatformInfo := none
  vercel : Option PlatformInfo := none
  netlify : Option PlatformInfo := none

/-- One `console.log` invocation: the format string and the further
arguments passed along with it. -/
structure ConsoleCall where
  fmt : String
  args : List JSVal

/-- The observable side effects of the logging code: console writes
(`console.log` / `console.warn`) and calls into the external ingestion
client. -/
inductive Effect where
  | consoleLog (call : ConsoleCall)
  | consoleWarn (err : JSVal)
  | ingestCall (dataset : String) (ev : LogEvent)
  | flushCall

/-- The process-wide state the logger reads: environment variables, the
configurator (whose source `core/config.ts` is not part of the staged
files; its observable behaviour is modelled from the spec), and the
behaviour of the external `@axiomhq/js` client. A client call that
throws (rejects) is an `Except.error` carrying the thrown value. -/
structure Env where
  axiomLogLevel : Option String
  envVarsSet : Bool
  dataset : Option String
  noPrettyPrint : Bool
  isBrowser : Bool
  platformMeta : Option PlatformInfo
  vercelMeta : Option PlatformInfo
  netlifyMeta : Option PlatformInfo
  now : String
  clientIngest : String → LogEvent → Except JSVal Unit
  clientFlush : Except JSVal Unit

/-- JS string `||`: the left operand unless it is falsy (empty). -/
def jsOrString (a b : String) : String :=
  if a = "" then b else a

/-- `const LOG_LEVEL = process.env.AXIOM_LOG_LEVEL || 'debug'`
(logger.ts line 6). -/
def LOG_LEVEL (env : Env) : String :=
  jsOrString (env.axiomLogLevel.getD "") "debug"

/-- `configurator.dataset || 'vercel'` (logger.ts line 163). -/
def datasetName (env : Env) : String :=
  jsOrString (env.dataset.getD "") "vercel"

/-- Modelled from the spec: the Configurator's
`injectPlatformMetadata(event, sourceTag)` capability (its code,
`core/config.ts`, is not among the staged files). Per the spec it
"mutates the event in place with deployment-specific fields",
attaching the platform-metadata payloads of the active deployment
target (the `platform`/`vercel`/`netlify` enrichment sections, which
carry the runtime `source` tag) and touching nothing else. -/
def injectPlatformMetadata (env : Env) (ev : LogEvent) (source : String) : LogEvent :=
  { ev with
    platform := env.platformMeta.map (fun p => { p with source := some source }),
    vercel := env.vercelMeta.map (fun p => { p with source := some source }),
    netlify := env.netlifyMeta.map (fun p => { p with source := some source }) }

/-- One hexadecimal digit. -/
def hexDigit (n : Nat) : Char :=
  if n < 10 then Char.ofNat (48 + n) else Char.ofNat (87 + (n % 16))

/-- Four-digit hexadecimal rendering, for JSON control-character
escapes. -/
def hex4 (n : Nat) : String :=
  String.mk [hexDigit (n / 4096 % 16), hexDigit (n / 256 % 16),
    hexDigit (n / 16 % 16), hexDigit (n % 16)]

/-- JSON escaping of one character inside a string literal. -/
def escapeJsonChar (c : Char) : String :=
  if c = '"' then "\\\""
  else if c = '\\' then "\\\\"
  else if c = '\n' then "\\n"
  else if c = '\t' then "\\t"
  else if c = '\r' then "\\r"
  else if c.toNat < 32 then "\\u" ++ hex4 c.toNat
  else String.mk [c]

/-- JSON escaping of a whole string. -/
def escapeJsonString (s : String) : String :=
  String.join (s.data.map escapeJsonChar)

mutual
/-- `JSON.stringify(v)` without a replacer; `none` when the value
serializes to nothing (`undefined`). An `Error` serializes as a plain
object of its own enumerable properties. -/
def jsonStringify : JSVal → Option String
  | .undefined => none
  | .null => some "null"
  | .bool b => some (if b then "true" else "false")
  | .num n => some (toString n)
  | .str s => some ("\"" ++ escapeJsonString s ++ "\"")
  | .arr xs => some ("[" ++ String.intercalate "," (jsonStringifyArr xs) ++ "]")
  | .obj fs => some ("\x7b" ++ String.intercalate "," (jsonStringifyObjEntries fs) ++ "\x7d")
  | .error _ _ _ props =>
    some ("\x7b" ++ String.intercalate "," (jsonStringifyObjEntries props) ++ "\x7d")

/-- Serialized elements of an array (`undefined` elements print as
`null`). -/
def jsonStringifyArr : List JSVal → List String
  | [] => []
  | x :: xs => (jsonStringify x).getD "null" :: jsonStringifyArr xs

/-- Serialized `"key":value` entries of an object, dropping entries
that serialize to nothing. -/
def jsonStringifyObjEntries : List (String × JSVal) → List String
  | [] => []
  | (k, x) :: fs =>
    match jsonStringify x with
    | some sv => ("\"" ++ escapeJsonString k ++ "\":" ++ sv) :: jsonStringifyObjEntries fs
    | none => jsonStringifyObjEntries fs
end

/-- The per-level colour table `levelColors` (logger.ts lines 181-198);
indexing it with an unknown level yields `undefined` (`none`). -/
structure LevelColor where
  terminal : String
  browser : String

/-- Lookup in `levelColors`. -/
def levelColors : String → Option LevelColor
  | "info" => some { terminal := "32", browser := "lightgreen" }
  | "debug" => some { terminal := "36", browser := "lightblue" }
  | "warn" => some { terminal := "33", browser := "yellow" }
  | "error" => some { terminal := "31", browser := "red" }
  | _ => none

/-- The trailing `' %o'` arguments of rich-mode `prettyPrint`: the
fields object when non-empty, then the request report when present and
truthy (logger.ts lines 226-234). -/
def appendFieldsAndRequest (ev : LogEvent) (call : ConsoleCall) (hasFields : Bool) : ConsoleCall :=
  let call :=
    if hasFields then { fmt := call.fmt ++ " %o", args := call.args ++ [.obj ev.fields] }
    else call
  match ev.request with
  | some r =>
    if truthy r then { fmt := call.fmt ++ " %o", args := call.args ++ [r] }
    else call
  | none => call

/-- `prettyPrint(ev)` (logger.ts lines 200-237): the single
`console.log` invocation it performs, or the `TypeError` it throws
when `levelColors[ev.level]` is `undefined` in a colourized mode. -/
def prettyPrint (env : Env) (ev : LogEvent) : Except JSVal ConsoleCall :=
  let hasFields := decide (0 < ev.fields.length)
  if env.noPrettyPrint then
    let msg := ev.level ++ " - " ++ ev.message
    let msg :=
      if hasFields then msg ++ " " ++ (jsonStringify (.obj ev.fields)).getD "" else msg
    .ok { fmt := msg, args := [] }
  else
    if env.isBrowser then
      match levelColors ev.level with
      | none => .error (.str "TypeError")
      | some color =>
        appendFieldsAndRequest ev
          { fmt := "%c%s - %s",
            args := [.str ("color: " ++ color.browser ++ ";"), .str ev.level, .str ev.message] }
          hasFields |> .ok
    else
      match levelColors ev.level with
      | none => .error (.str "TypeError")
      | some color =>
        appendFieldsAndRequest ev
          { fmt := "\x1b[" ++ color.terminal ++ "m%s\x1b[0m - %s",
            args := [.str ev.level, .str ev.message] }
          hasFields |> .ok

/-- `LoggerConfig` (logger.ts lines 46-51): every key optional,
`none` standing for an absent key. -/
structure LoggerConfig where
  args : Option (List (String × JSVal)) := none
  logLevel : Option LogLevel := none
  source : Option String := none
  req : Option JSVal := none

/-- Shallow object spread of two configs, `\x7b...a, ...b\x7d`: b's
present keys win. -/
def mergeConfig (a b : LoggerConfig) : LoggerConfig where
  args := match b.args with | some v => some v | none => a.args
  logLevel := match b.logLevel with | some v => some v | none => a.logLevel
  source := match b.source with | some v => some v | none => a.source
  req := match b.req with | some v => some v | none => a.req

/-- The class field initializer of `Logger.config` (logger.ts lines
58-62). -/
def defaultConfig : LoggerConfig :=
  { source := some "frontend", logLevel := some LogLevel.debug }

/-- A `Logger` instance: its merged config, the `logLevel` string the
constructor computed, and the mutable `children` list. (The
`client`/`clientOpts` fields are the external ingestion client, whose
behaviour lives in `Env`.) -/
inductive Logger where
  | mk (config : LoggerConfig) (logLevel : String) (children : List Logger)

/-- The `config` field. -/
def Logger.config : Logger → LoggerConfig
  | .mk c _ _ => c

/-- The `logLevel` field. -/
def Logger.logLevel : Logger → String
  | .mk _ l _ => l

/-- The `children` field. -/
def Logger.children : Logger → List Logger
  | .mk _ _ cs => cs

/-- `new Logger(initConfig)` (logger.ts lines 64-75): merge the
defaults with `initConfig`; `this.logLevel` is
`this.config.logLevel ? this.config.logLevel.toString() : LOG_LEVEL || 'debug'`,
where the config's numeric level is falsy exactly when it is
`LogLevel.debug` (0) and `toString` renders the number in decimal. -/
def Logger.new (env : Env) (initConfig : LoggerConfig) : Logger :=
  let config := mergeConfig defaultConfig initConfig
  let logLevel :=
    match config.logLevel with
    | some lv =>
      if lv.toNat = 0 then jsOrString (LOG_LEVEL env) "debug"
      else toString lv.toNat
    | none => jsOrString (LOG_LEVEL env) "debug"
  Logger.mk config logLevel []

/-- The argument-merging step of `_log` (logger.ts lines 119-127),
applied to `fields = this.config.args || \x7b\x7d`: an `Error` is
decomposed into `message`/`stack`/`name`; a non-null object with at
least one enumerable key is JSON round-tripped and spread into the
fields; otherwise a truthy value with a truthy `length` is stored
under the `args` key; anything else is ignored. -/
def mkFields (base : List (String × JSVal)) (args : JSVal) : List (String × JSVal) :=
  match args with
  | .error name message stack _props =>
    mergeObj base [("message", .str message), ("stack", .str stack), ("name", .str name)]
  | _ =>
    if typeofIsObject args = true ∧ isNull args = false ∧ 0 < (objKeys args).length then
      mergeObj base (spreadEntries (jsonRoundTrip args))
    else if truthy args = true ∧ truthy (lengthProp args) = true then
      mergeObj base [("args", args)]
    else base

/-- The request-attachment step of `_log` (logger.ts lines 131-138):
when `this.config.req != null`, store it on the event and copy
`req.path` onto the populated platform section's `route`. -/
def attachRequest (ev : LogEvent) (req : Option JSVal) : LogEvent :=
  match req with
  | none => ev
  | some r =>
    if isNullish r then ev
    else
      let ev := { ev with request := some r }
      match ev.platform with
      | some p => { ev with platform := some { p with route := some (jsGet r "path") } }
      | none =>
        match ev.vercel with
        | some p => { ev with vercel := some { p with route := some (jsGet r "path") } }
        | none => ev

/-- The `LogEvent` `_log` constructs (logger.ts lines 112-138): base
fields from `this.config.args || \x7b\x7d` merged with the call-site
`args`, platform metadata injected by the configurator, then the
request context attached. (`this.config.source!` is the non-null
assertion; the constructor always populates `source`.) -/
def Logger.buildEvent (env : Env) (l : Logger) (level message : String) (args : JSVal) : LogEvent :=
  let ev : LogEvent :=
    { level := level, message := message, _time := env.now,
      fields := mkFields (l.config.args.getD []) args }
  attachRequest (injectPlatformMetadata env ev (l.config.source.getD "")) l.config.req

/-- `Logger.ingest(ev)` (logger.ts lines 153-168): with the ingestion
environment variables unset, fall back to `prettyPrint`; otherwise
call the client's `ingest` on `configurator.dataset || 'vercel'`,
swallowing a thrown error with a `console.warn`. -/
def Logger.ingest (env : Env) (_l : Logger) (ev : LogEvent) : Except JSVal (List Effect) :=
  if !env.envVarsSet then
    match prettyPrint env ev with
    | .ok call => .ok [Effect.consoleLog call]
    | .error e => .error e
  else
    match env.clientIngest (datasetName env) ev with
    | .ok _ => .ok [Effect.ingestCall (datasetName env) ev]
    | .error err => .ok [Effect.ingestCall (datasetName env) ev, Effect.consoleWarn err]

/-- `Logger._log(level, message, args)` (logger.ts lines 108-141):
return immediately when `LogLevel[level] < LogLevel[this.logLevel]`,
otherwise build the event and ingest it. The result is the list of
observable effects, or the value of an uncaught throw. -/
def Logger._log (env : Env) (l : Logger) (level message : String) (args : JSVal) :
    Except JSVal (List Effect) :=
  if jsLt (logLevelLookup level) (logLevelLookup l.logLevel) then .ok []
  else Logger.ingest env l (Logger.buildEvent env l level message args)

/-- `logger.debug(message, args)` (logger.ts lines 77-79). -/
def Logger.debug (env : Env) (l : Logger) (message : String) (args : JSVal) :
    Except JSVal (List Effect) :=
  Logger._log env l "debug" message args

/-- `logger.info(message, args)` (logger.ts lines 80-82). -/
def Logger.info (env : Env) (l : Logger) (message : String) (args : JSVal) :
    Except JSVal (List Effect) :=
  Logger._log env l "info" message args

/-- `logger.warn(message, args)` (logger.ts lines 83-85). -/
def Logger.warn (env : Env) (l : Logger) (message : String) (args : JSVal) :
    Except JSVal (List Effect) :=
  Logger._log env l "warn" message args

/-- `logger.error(message, args)` (logger.ts lines 86-88). -/
def Logger.error (env : Env) (l : Logger) (message : String) (args : JSVal) :
    Except JSVal (List Effect) :=
  Logger._log env l "error" message args

/-- `logger.with(config)` (logger.ts lines 90-95): a child built from
the shallow merge of the receiver's config and the overrides, pushed
onto the receiver's `children`. The result pair is (receiver after the
call, returned child), making the mutation of `this.children`
explicit. -/
def Logger.withConfig (env : Env) (l : Logger) (config : LoggerConfig) : Logger × Logger :=
  let newConfig := mergeConfig l.config config
  let child := Logger.new env newConfig
  (Logger.mk l.config l.logLevel (l.children ++ [child]), child)

/-- `logger.withArgs(args)` (logger.ts lines 97-102): like `with`, but
merging only the `args` map, key-wise. Result pair as in
`Logger.withConfig`. -/
def Logger.withArgs (env : Env) (l : Logger) (args : List (String × JSVal)) : Logger × Logger :=
  let config := { l.config with args := some (mergeObj (l.config.args.getD []) args) }
  let child := Logger.new env config
  (Logger.mk l.config l.logLevel (l.children ++ [child]), child)

/-- `logger.withRequest(req)` (logger.ts lines 104-106): a new Logger
with the request context spread over the receiver's `req`; unlike
`with`/`withArgs` it does not touch `this.children`. Result pair as in
`Logger.withConfig`: the receiver comes back unchanged. -/
def Logger.withRequest (env : Env) (l : Logger) (req : JSVal) : Logger × Logger :=
  (l,
    Logger.new env
      { l.config with
        req := some (.obj (mergeObj (spreadEntries (l.config.req.getD .undefined))
          (spreadEntries req))) })

/-- `logger.flush()` (logger.ts lines 170-178): await the client's
flush; a rejection is caught, warned to the console and replaced by a
resolved promise. -/
def Logger.flush (env : Env) (_l : Logger) : Except JSVal (List Effect) :=
  match env.clientFlush with
  | .ok _ => .ok [Effect.flushCall]
  | .error err => .ok [Effect.flushCall, Effect.consoleWarn err]

/-- The effects of a run that completed without an uncaught throw. -/
def okEffects : Except JSVal (List Effect) → List Effect
  | .ok effs => effs
  | .error _ => []

/-- The first event handed to the ingestion client in an effect
trace. -/
def firstIngestedEvent : List Effect → Option LogEvent
  | [] => none
  | Effect.ingestCall _ ev :: _ => some ev
  | _ :: rest => firstIngestedEvent rest

/-- A development environment: no ingestion credentials, no
`AXIOM_LOG_LEVEL`, pretty printing disabled, server runtime, no
platform metadata, a client that never fails. -/
def devEnv : Env where
  axiomLogLevel := none
  envVarsSet := false
  dataset := none
  noPrettyPrint := true
  isBrowser := false
  platformMeta := none
  vercelMeta := none
  netlifyMeta := none
  now := "2024-01-01T00:00:00.000Z"
  clientIngest := fun _ _ => .ok ()
  clientFlush := .ok ()

/-- A production-like environment: ingestion credentials set, client
calls succeed. -/
def prodEnv : Env :=
  { devEnv with envVarsSet := true }

/-- An environment whose client `ingest` always throws. -/
def throwEnv : Env :=
  { devEnv with envVarsSet := true, clientIngest := fun _ _ => .error (.str "boom") }

/-- An environment whose client `flush` rejects. -/
def flushFailEnv : Env :=
  { devEnv with clientFlush := .error (.str "neterr") }

/-- A root logger built with an empty init config. -/
def rootLogger : Logger :=
  Logger.new devEnv {}

theorem olookup_append (k : String) (a b : List (String × JSVal)) :
    olookup k (a ++ b) =
      match olookup k a with
      | some v => some v
      | none => olookup k b := by
  induction a with
  | nil => simp [olookup]
  | cons p rest ih =>
    obtain ⟨k₁, v⟩ := p
    by_cases h : k₁ = k <;> simp [olookup, h, ih]

theorem olookup_map_override (k : String) (a b : List (String × JSVal)) :
    olookup k (a.map (fun p => (p.1, (olookup p.1 b).getD p.2))) =
      (olookup k a).map (fun v => (olookup k b).getD v) := by
  induction a with
  | nil => simp [olookup]
  | cons p rest ih =>
    obtain ⟨k₁, v⟩ := p
    by_cases h : k₁ = k
    · subst h
      simp [olookup]
    · simp [olookup, h, ih]

theorem olookup_filterKey (k : String) (b : List (String × JSVal)) (q : String → Bool) :
    olookup k (b.filter (fun p => q p.1)) = if q k then olookup k b else none := by
  induction b with
  | nil => simp [olookup]
  | cons p rest ih =>
    obtain ⟨k₁, v⟩ := p
    by_cases h : k₁ = k
    · subst h
      by_cases hq : q k₁ <;> simp [List.filter, olookup, hq, ih]
    · by_cases hq : q k₁ <;> simp [List.filter, olookup, hq, h, ih]

theorem olookup_mergeObj (k : String) (a b : List (String × JSVal)) :
    olookup k (mergeObj a b) =
      match olookup k b with
      | some v => some v
      | none => olookup k a := by
  unfold mergeObj
  rw [olookup_append, olookup_map_override,
    olookup_filterKey k b (fun k₁ => (olookup k₁ a).isNone)]
  cases ha : olookup k a <;> cases hb : olookup k b <;> simp [ha, hb]

theorem new_config (env : Env) (c : LoggerConfig)
    (hs : c.source.isSome = true) (hl : c.logLevel.isSome = true) :
    (Logger.new env c).config = c := by
  obtain ⟨args, logLevel, source, req⟩ := c
  cases logLevel with
  | none => simp at hl
  | some lv =>
    cases source with
    | none => simp at hs
    | some s => cases args <;> cases req <;> rfl

theorem attachRequest_level (ev : LogEvent) (r : Option JSVal) :
    (attachRequest ev r).level = ev.level ∧ (attachRequest ev r).message = ev.message := by
  unfold attachRequest
  cases r with
  | none => exact ⟨rfl, rfl⟩
  | some v =>
    by_cases h : isNullish v = true
    · simp [h]
    · simp only [Bool.not_eq_true] at h
      simp only [h]
      cases ev.platform <;> cases ev.vercel <;> simp

theorem buildEvent_level (env : Env) (l : Logger) (level message : String) (args : JSVal) :
    (Logger.buildEvent env l level message args).level = level ∧
      (Logger.buildEvent env l level message args).message = message := by
  unfold Logger.buildEvent
  have h := attachRequest_level
    (injectPlatformMetadata env
      { level := level, message := message, _time := env.now,
        fields := mkFields (l.config.args.getD []) args }
      (l.config.source.getD ""))
    l.config.req
  simpa [injectPlatformMetadata] using h

theorem prettyPrint_isOk (env : Env) (ev : LogEvent) (c : LevelColor)
    (h : levelColors ev.level = some c) :
    ∃ call, prettyPrint env ev = .ok call := by
  unfold prettyPrint
  cases hnp : env.noPrettyPrint
  · cases hb : env.isBrowser <;> simp [h]
  · simp

/-- C1: the level filter does not hold on the code. A Logger
constructed with the config `logLevel: LogLevel.warn` stores
`this.logLevel = "2"`; the enum's reverse mapping makes
`LogLevel["2"]` the string `"warn"`, so the guard
`LogLevel['debug'] < LogLevel[this.logLevel]` compares a number with a
non-numeric string and is false, and the below-threshold `debug` call
still produces a console write instead of being a no-op. -/
theorem c1_enum_configured_filter_is_broken :
    (Logger.new devEnv { logLevel := some LogLevel.warn }).logLevel = "2" ∧
    logLevelLookup "2" = some (.str "warn") ∧
    jsLt (logLevelLookup "debug") (logLevelLookup "2") = false ∧
    okEffects (Logger.debug devEnv (Logger.new devEnv { logLevel := some LogLevel.warn })
        "x" (.obj [])) =
      [Effect.consoleLog { fmt := "debug - x", args := [] }] :=
  ⟨rfl, rfl, rfl, rfl⟩

/-- C2: `flush()` never rejects: for every environment (hence every
behaviour of the client's flush) the result is `Except.ok`, and when
the client's flush rejects with `err` the run resolves after warning
`err` to the console. -/
theorem c2_flush_never_rejects (env : Env) (l : Logger) :
    (Logger.flush env l).isOk = true ∧
    ∀ err, env.clientFlush = .error err →
      Logger.flush env l = .ok [Effect.flushCall, Effect.consoleWarn err] := by
  constructor
  · unfold Logger.flush
    cases env.clientFlush <;> rfl
  · intro err h
    unfold Logger.flush
    rw [h]

theorem c2_flush_never_rejects_witness :
    (Logger.flush flushFailEnv rootLogger).isOk = true ∧
    Logger.flush flushFailEnv rootLogger =
      .ok [Effect.flushCall, Effect.consoleWarn (.str "neterr")] :=
  ⟨(c2_flush_never_rejects flushFailEnv rootLogger).1,
   (c2_flush_never_rejects flushFailEnv rootLogger).2 (.str "neterr") rfl⟩

/-- C5: an `Error` passed as the `args` argument is decomposed: the
resulting fields map holds the error's `message`, `stack` and `name`
under those keys, and the error object itself is never stored (any key
still mapping to it was already mapped to it by the base fields coming
from the config). -/
theorem c5_error_args_decomposed (base : List (String × JSVal)) (n m s : String)
    (props : List (String × JSVal)) :
    olookup "message" (mkFields base (.error n m s props)) = some (.str m) ∧
    olookup "stack" (mkFields base (.error n m s props)) = some (.str s) ∧
    olookup "name" (mkFields base (.error n m s props)) = some (.str n) ∧
    ∀ k, olookup k (mkFields base (.error n m s props)) = some (.error n m s props) →
      olookup k base = some (.error n m s props) := by
  have e : mkFields base (.error n m s props) =
      mergeObj base [("message", .str m), ("stack", .str s), ("name", .str n)] := rfl
  refine ⟨?_, ?_, ?_, ?_⟩
  · rw [e, olookup_mergeObj]; simp [olookup]
  · rw [e, olookup_mergeObj]; simp [olookup]
  · rw [e, olookup_mergeObj]; simp [olookup]
  · intro k h
    rw [e, olookup_mergeObj] at h
    cases htriple : olookup k [("message", .str m), ("stack", .str s), ("name", .str n)] with
    | none => rw [htriple] at h; exact h
    | some v =>
      rw [htriple] at h
      simp only [Option.some.injEq] at h
      subst h
      simp only [olookup] at htriple
      split at htriple
      · simp at htriple
      · split at htriple
        · simp at htriple
        · split at htriple
          · simp at htriple
          · simp at htriple

theorem c5_error_args_decomposed_witness :
    olookup "message" (mkFields [("x", .num 9)] (.error "Error" "kaboom" "stacktrace" [])) =
      some (.str "kaboom") ∧
    olookup "stack" (mkFields [("x", .num 9)] (.error "Error" "kaboom" "stacktrace" [])) =
      some (.str "stacktrace") ∧
    olookup "name" (mkFields [("x", .num 9)] (.error "Error" "kaboom" "stacktrace" [])) =
      some (.str "Error") ∧
    ∀ k, olookup k (mkFields [("x", .num 9)] (.error "Error" "kaboom" "stacktrace" [])) =
        some (.error "Error" "kaboom" "stacktrace" []) →
      olookup k [("x", .num 9)] = some (.error "Error" "kaboom" "stacktrace" []) :=
  c5_error_args_decomposed [("x", .num 9)] "Error" "kaboom" "stacktrace" []

/-- C6 counterexample: an array argument is not stored under
`fields.args` as the claim states; its entries are spread into the
fields under their index keys instead. -/
theorem c6_counterexample_array_is_spread :
    olookup "args" (mkFields [] (.arr [.num 1, .num 2])) = none ∧
    olookup "0" (mkFields [] (.arr [.num 1, .num 2])) = some (.num 1) ∧
    olookup "1" (mkFields [] (.arr [.num 1, .num 2])) = some (.num 2) ∧
    olookup "args" (mkFields [] (.num 5)) = none :=
  ⟨rfl, rfl, rfl, rfl⟩

/-- C6 (amended): a non-null object with at least one enumerable key —
a plain mapping or a non-empty array alike — has its (JSON
round-tripped) entries spread into the fields, arrays under their
decimal index keys; otherwise, only a truthy value with a truthy
`length` (e.g. a non-empty string) is stored under `fields.args`;
bare values without a `length`, such as numbers and booleans, and
empty objects are ignored. -/
theorem c6_args_merge_dispatch (base fs' : List (String × JSVal)) (xs : List JSVal)
    (s : String) (n : Int) (b : Bool)
    (hfs : fs' ≠ []) (hxs : xs ≠ []) (hs : 0 < s.length) :
    mkFields base (.obj fs') = mergeObj base (jsonRoundTripObj fs') ∧
    mkFields base (.arr xs) = mergeObj base (arrayEntries (jsonRoundTripArr xs)) ∧
    mkFields base (.str s) = mergeObj base [("args", .str s)] ∧
    mkFields base (.num n) = base ∧
    mkFields base (.bool b) = base ∧
    mkFields base (.obj []) = base := by
  have hsne : s ≠ "" := by
    intro he
    subst he
    simp at hs
  refine ⟨?_, ?_, ?_, ?_, ?_, ?_⟩
  · simp [mkFields, typeofIsObject, isNull, objKeys, spreadEntries, jsonRoundTrip,
      List.length_pos, hfs]
  · simp [mkFields, typeofIsObject, isNull, objKeys, spreadEntries, jsonRoundTrip,
      arrayEntries, List.length_pos, hxs]
  · simp [mkFields, typeofIsObject, truthy, lengthProp, hsne, Nat.pos_iff_ne_zero.mp hs]
  · simp [mkFields, typeofIsObject, truthy, lengthProp]
  · simp [mkFields, typeofIsObject, truthy, lengthProp]
  · simp [mkFields, typeofIsObject, isNull, objKeys, truthy, lengthProp, olookup]

theorem c6_args_merge_dispatch_witness :
    ([("k", JSVal.num 7)] ≠ ([] : List (String × JSVal))) ∧
    ([JSVal.num 1] ≠ ([] : List JSVal)) ∧
    (0 < ("ab" : String).length) ∧
    (mkFields [] (.obj [("k", .num 7)]) = mergeObj [] (jsonRoundTripObj [("k", .num 7)]) ∧
     mkFields [] (.arr [.num 1]) = mergeObj [] (arrayEntries (jsonRoundTripArr [.num 1])) ∧
     mkFields [] (.str "ab") = mergeObj [] [("args", .str "ab")] ∧
     mkFields [] (.num 5) = ([] : List (String × JSVal)) ∧
     mkFields [] (.bool true) = ([] : List (String × JSVal)) ∧
     mkFields [] (.obj []) = ([] : List (String × JSVal))) :=
  ⟨List.cons_ne_nil _ _, List.cons_ne_nil _ _, by decide,
   c6_args_merge_dispatch [] [("k", .num 7)] [.num 1] "ab" 5 true
     (List.cons_ne_nil _ _) (List.cons_ne_nil _ _) (by decide)⟩

/-- C3: with the ingestion environment variables unset, every level
call that passes the level filter performs exactly one console write —
the single `console.log` of the console formatter — and never calls
the ingestion client. -/
theorem c3_dev_mode_single_console_write (env : Env) (l : Logger) (level message : String)
    (args : JSVal)
    (hlv : level ∈ (["debug", "info", "warn", "error"] : List String))
    (henv : env.envVarsSet = false)
    (hpass : jsLt (logLevelLookup level) (logLevelLookup l.logLevel) = false) :
    ∃ call, Logger._log env l level message args = .ok [Effect.consoleLog call] := by
  have hcolor : ∃ c, levelColors (Logger.buildEvent env l level message args).level = some c := by
    rw [(buildEvent_level env l level message args).1]
    simp only [List.mem_cons, List.not_mem_nil, or_false] at hlv
    rcases hlv with rfl | rfl | rfl | rfl
    · exact ⟨_, rfl⟩
    · exact ⟨_, rfl⟩
    · exact ⟨_, rfl⟩
    · exact ⟨_, rfl⟩
  obtain ⟨c, hc⟩ := hcolor
  obtain ⟨call, hcall⟩ := prettyPrint_isOk env _ c hc
  refine ⟨call, ?_⟩
  unfold Logger._log
  rw [hpass]
  simp only [Bool.false_eq_true, if_false]
  unfold Logger.ingest
  rw [henv]
  simp only [Bool.not_false, if_true, hcall]

theorem c3_dev_mode_single_console_write_witness :
    ("info" ∈ (["debug", "info", "warn", "error"] : List String)) ∧
    devEnv.envVarsSet = false ∧
    jsLt (logLevelLookup "info") (logLevelLookup rootLogger.logLevel) = false ∧
    ∃ call, Logger._log devEnv rootLogger "info" "hello" (.obj []) =
      .ok [Effect.consoleLog call] :=
  ⟨by decide, rfl, rfl,
   c3_dev_mode_single_console_write devEnv rootLogger "info" "hello" (.obj [])
     (by decide) rfl rfl⟩

/-- C4: when the client's `ingest` throws, the error is caught and
warned to the console and never propagates out of `_log`: the run
still completes with `Except.ok`, and whenever the call passed the
level filter the trace holds the `console.warn` of the thrown
error. -/
theorem c4_ingest_throw_swallowed (env : Env) (l : Logger) (level message : String)
    (args : JSVal) (err : JSVal)
    (henv : env.envVarsSet = true)
    (hthrow : ∀ ds ev, env.clientIngest ds ev = .error err) :
    ∃ effs, Logger._log env l level message args = .ok effs ∧
      (jsLt (logLevelLookup level) (logLevelLookup l.logLevel) = false →
        Effect.consoleWarn err ∈ effs) := by
  unfold Logger._log
  by_cases hf : jsLt (logLevelLookup level) (logLevelLookup l.logLevel) = true
  · refine ⟨[], ?_, ?_⟩
    · rw [hf]
      simp
    · intro hpass
      rw [hpass] at hf
      simp at hf
  · have hf' : jsLt (logLevelLookup level) (logLevelLookup l.logLevel) = false := by
      simpa using hf
    refine ⟨[Effect.ingestCall (datasetName env) (Logger.buildEvent env l level message args),
             Effect.consoleWarn err], ?_, ?_⟩
    · rw [hf']
      simp only [Bool.false_eq_true, if_false]
      unfold Logger.ingest
      rw [henv]
      simp only [Bool.not_true, Bool.false_eq_true, if_false, hthrow]
    · intro _
      simp

theorem c4_ingest_throw_swallowed_witness :
    throwEnv.envVarsSet = true ∧
    (∀ ds ev, throwEnv.clientIngest ds ev = .error (.str "boom")) ∧
    ∃ effs, Logger._log throwEnv rootLogger "info" "hello" (.obj []) = .ok effs ∧
      (jsLt (logLevelLookup "info") (logLevelLookup rootLogger.logLevel) = false →
        Effect.consoleWarn (.str "boom") ∈ effs) :=
  ⟨rfl, fun _ _ => rfl,
   c4_ingest_throw_swallowed throwEnv rootLogger "info" "hello" (.obj []) (.str "boom")
     rfl (fun _ _ => rfl)⟩

/-- C7: `with(configOverrides)` yields a child whose config is the
shallow merge of the receiver's config with the overrides (the
overrides winning on conflict), and the child is appended to the
receiver's `children` list. The hypotheses record that the receiver is
a constructed Logger, whose config always carries `source` and
`logLevel` (the constructor defaults them), so the constructor's
re-merge with the defaults changes nothing. -/
theorem c7_with_merges_and_registers (env : Env) (l : Logger) (cfg : LoggerConfig)
    (hs : l.config.source.isSome = true) (hl : l.config.logLevel.isSome = true) :
    (Logger.withConfig env l cfg).2.config = mergeConfig l.config cfg ∧
    (Logger.withConfig env l cfg).1.children =
      l.children ++ [(Logger.withConfig env l cfg).2] := by
  constructor
  · show (Logger.new env (mergeConfig l.config cfg)).config = mergeConfig l.config cfg
    apply new_config
    · simp only [mergeConfig]
      cases h : cfg.source <;> simp [h, hs]
    · simp only [mergeConfig]
      cases h : cfg.logLevel <;> simp [h, hl]
  · rfl

theorem c7_with_merges_and_registers_witness :
    rootLogger.config.source.isSome = true ∧
    rootLogger.config.logLevel.isSome = true ∧
    ((Logger.withConfig devEnv rootLogger { source := some "backend" }).2.config =
        mergeConfig rootLogger.config { source := some "backend" } ∧
     (Logger.withConfig devEnv rootLogger { source := some "backend" }).1.children =
        rootLogger.children ++
          [(Logger.withConfig devEnv rootLogger { source := some "backend" }).2]) :=
  ⟨rfl, rfl,
   c7_with_merges_and_registers devEnv rootLogger { source := some "backend" } rfl rfl⟩

theorem withArgs_child_config (env : Env) (l : Logger) (extra : List (String × JSVal))
    (hs : l.config.source.isSome = true) (hl : l.config.logLevel.isSome = true) :
    (Logger.withArgs env l extra).2.config =
      { l.config with args := some (mergeObj (l.config.args.getD []) extra) } := by
  show (Logger.new env _).config = _
  apply new_config <;> simp [hs, hl]

/-- C8: `withArgs` merges only the `args` map — `source`, `logLevel`
and `req` are taken over unchanged from the receiver — and chaining
`withArgs \x7ba:1\x7d` then `withArgs \x7bb:2\x7d` yields a config whose
args map holds both `a` and `b`. -/
theorem c8_withArgs_accumulates (env : Env) (l : Logger)
    (hs : l.config.source.isSome = true) (hl : l.config.logLevel.isSome = true) :
    (∀ extra : List (String × JSVal),
      (Logger.withArgs env l extra).2.config.source = l.config.source ∧
      (Logger.withArgs env l extra).2.config.logLevel = l.config.logLevel ∧
      (Logger.withArgs env l extra).2.config.req = l.config.req ∧
      (Logger.withArgs env l extra).2.config.args =
        some (mergeObj (l.config.args.getD []) extra)) ∧
    (olookup "a"
        (((Logger.withArgs env (Logger.withArgs env l [("a", .num 1)]).2
            [("b", .num 2)]).2.config.args).getD []) = some (.num 1) ∧
     olookup "b"
        (((Logger.withArgs env (Logger.withArgs env l [("a", .num 1)]).2
            [("b", .num 2)]).2.config.args).getD []) = some (.num 2)) := by
  have h1 := withArgs_child_config env l [("a", .num 1)] hs hl
  have hs1 : (Logger.withArgs env l [("a", .num 1)]).2.config.source.isSome = true := by
    rw [h1]
    exact hs
  have hl1 : (Logger.withArgs env l [("a", .num 1)]).2.config.logLevel.isSome = true := by
    rw [h1]
    exact hl
  have h2 := withArgs_child_config env (Logger.withArgs env l [("a", .num 1)]).2
    [("b", .num 2)] hs1 hl1
  refine ⟨?_, ?_, ?_⟩
  · intro extra
    have h := withArgs_child_config env l extra hs hl
    rw [h]
    exact ⟨rfl, rfl, rfl, rfl⟩
  · rw [h2, h1]
    simp only [Option.getD_some]
    rw [olookup_mergeObj, olookup_mergeObj]
    simp [olookup]
  · rw [h2]
    simp only [Option.getD_some]
    rw [olookup_mergeObj]
    simp [olookup]

theorem c8_withArgs_accumulates_witness :
    rootLogger.config.source.isSome = true ∧
    rootLogger.config.logLevel.isSome = true ∧
    olookup "a"
        (((Logger.withArgs devEnv (Logger.withArgs devEnv rootLogger [("a", .num 1)]).2
            [("b", .num 2)]).2.config.args).getD []) = some (.num 1) ∧
    olookup "b"
        (((Logger.withArgs devEnv (Logger.withArgs devEnv rootLogger [("a", .num 1)]).2
            [("b", .num 2)]).2.config.args).getD []) = some (.num 2) :=
  ⟨rfl, rfl,
   (c8_withArgs_accumulates devEnv rootLogger rfl rfl).2.1,
   (c8_withArgs_accumulates devEnv rootLogger rfl rfl).2.2⟩

/-- C9 counterexample: the fields map of a constructed event can
contain the reserved key `message`: an `error(msg, err)` call stores
the error's own message under `fields.message`, distinct from the
event's `message` metadata. -/
theorem c9_counterexample_reserved_key_in_fields :
    (firstIngestedEvent (okEffects (Logger.error prodEnv rootLogger "boom happened"
        (.error "Error" "kaboom" "stacktrace" [])))).map
        (fun ev => olookup "message" ev.fields) = some (some (.str "kaboom")) ∧
    (firstIngestedEvent (okEffects (Logger.error prodEnv rootLogger "boom happened"
        (.error "Error" "kaboom" "stacktrace" [])))).map
        (fun ev => ev.message) = some "boom happened" :=
  ⟨rfl, rfl⟩

/-- C9 (amended): the code does not keep reserved keys out of the
fields map — Error decomposition and caller args can store keys named
`message`, `level` etc. there — but the event's metadata lives outside
`fields`: the constructed event's `level` and `message` always equal
the call's level and message, whatever the fields map holds. -/
theorem c9_metadata_outside_fields (env : Env) (l : Logger) (level message : String)
    (args : JSVal) :
    (Logger.buildEvent env l level message args).level = level ∧
      (Logger.buildEvent env l level message args).message = message :=
  buildEvent_level env l level message args

/-- C10: `withRequest` merges the request context into the new
Logger's config but, unlike `with`/`withArgs`, leaves the receiver —
in particular its `children` list — untouched: the returned instance
is not registered as a child. -/
theorem c10_withRequest_does_not_register (env : Env) (l : Logger) (req : JSVal)
    (hs : l.config.source.isSome = true) (hl : l.config.logLevel.isSome = true) :
    (Logger.withRequest env l req).1 = l ∧
    (Logger.withRequest env l req).1.children = l.children ∧
    (Logger.withRequest env l req).2.config =
      { l.config with
        req := some (.obj (mergeObj (spreadEntries (l.config.req.getD .undefined))
          (spreadEntries req))) } := by
  refine ⟨rfl, rfl, ?_⟩
  show (Logger.new env _).config = _
  apply new_config <;> simp [hs, hl]

theorem c10_withRequest_does_not_register_witness :
    rootLogger.config.source.isSome = true ∧
    rootLogger.config.logLevel.isSome = true ∧
    (Logger.withRequest devEnv rootLogger (.obj [("path", .str "/api/x")])).1 = rootLogger ∧
    (Logger.withRequest devEnv rootLogger
        (.obj [("path", .str "/api/x")])).1.children = rootLogger.children ∧
    (Logger.withRequest devEnv rootLogger (.obj [("path", .str "/api/x")])).2.config =
      { rootLogger.config with
        req := some (.obj (mergeObj (spreadEntries (rootLogger.config.req.getD .undefined))
          (spreadEntries (.obj [("path", .str "/api/x")])))) } :=
  ⟨rfl, rfl,
   (c10_withRequest_does_not_register devEnv rootLogger (.obj [("path", .str "/api/x")])
      rfl rfl).1,
   (c10_withRequest_does_not_register devEnv rootLogger (.obj [("path", .str "/api/x")])
      rfl rfl).2.1,
   (c10_withRequest_does_not_register devEnv rootLogger (.obj [("path", .str "/api/x")])
      rfl rfl).2.2⟩

end NextAxiom
